import Mathlib

/-!
Verification of the Heru ESP32 firmware (src/IoT Firmware/src/main.cpp and
src/IoT Firmware/src/config.h) against its natural-language specification.

The firmware is a single-threaded Arduino sketch: `setup_wifi` blocks until
WiFi association succeeds, `reconnect` blocks until an MQTT session is
established (5-second backoff between attempts), and `loop` runs one
sample-and-publish cycle: ensure the broker session, pump the client, read
humidity then temperature from the DHT sensor, validate against NaN, build a
JSON payload by string concatenation, publish it, and sleep 30 seconds.

The embedding is trace-based: each side-effecting step of the C++ code is
recorded as an `Event`; the blocking while-loops are given explicit fuel and
oracles (`Nat → Bool`) for the outcomes of the external calls
(`WiFi.status()`, `client.connect(...)`), returning `none` when the fuel is
exhausted before the loop exits.  Sensor floats are modelled as exact decimal
values `FVal.fin mant exp` (value mant / 10^exp) or `FVal.nan`; the Arduino
`String(float)` conversion (dtostrf with the default 2 decimal places,
rounding half away from zero) is modelled by `fmtFixed2`.
-/

namespace Heru

/-! ### Configuration constants, from src/config.h -/

def WIFI_SSID : String := "YOUR_WIFI_SSID"

def DEVICE_ID : String := "esp32_sensor_01"

def MQTT_TOPIC : String := "heru/sensors/esp32_sensor_01"

/-! ### Sensor values -/

/-- A value returned by the DHT sensor / stored in a C++ float: either NaN
(the sensor-failure sentinel) or a finite value, represented exactly as the
decimal fraction mant / 10^exp. -/
inductive FVal where
  | nan : FVal
  | fin (mant : Int) (exp : Nat) : FVal
deriving DecidableEq, Repr

/-- The C `isnan` predicate used by the validation check in `loop`. -/
def FVal.isnan : FVal → Bool
  | FVal.nan => true
  | FVal.fin _ _ => false

/-- Two-digit zero-padded rendering of a number below 100, for the fractional
part of the fixed-point float format. -/
def pad2 (k : Nat) : String :=
  if k < 10 then "0" ++ toString k else toString k

/-- Fixed-point rendering of mant / 10^exp with exactly two decimal places,
rounding half away from zero: the behaviour of dtostrf(v, 4, 2, buf), which
is what the Arduino `String(float)` constructor uses by default. -/
def fmtFixed2 (mant : Int) (exp : Nat) : String :=
  let sign := if mant < 0 then "-" else ""
  let m : Nat := mant.natAbs
  let d : Nat := 10 ^ exp
  let n : Nat := (200 * m + d) / (2 * d)
  sign ++ toString (n / 100) ++ "." ++ pad2 (n % 100)

/-- Arduino `String(float)` with the default 2 decimal places; `String(NAN)`
renders "nan". -/
def arduinoString : FVal → String
  | FVal.nan => "nan"
  | FVal.fin m e => fmtFixed2 m e

/-! ### Events

Each side-effecting step of the firmware is recorded as one event. -/

inductive Event where
  | delayMs (n : Nat) : Event
  | logMsg (s : String) : Event
  | logIpAddr : Event
  | wifiBeginEv : Event
  | mqttConnectAttempt (success : Bool) : Event
  | clientLoopPump : Event
  | sensorReadHumidity : Event
  | sensorReadTemperature : Event
  | mqttPublish (topic : String) (payload : String) : Event
deriving DecidableEq, Repr

def Event.isPublishEv : Event → Bool
  | Event.mqttPublish _ _ => true
  | _ => false

def Event.isDelayEv : Event → Bool
  | Event.delayMs _ => true
  | _ => false

def Event.isAttemptEv : Event → Bool
  | Event.mqttConnectAttempt _ => true
  | _ => false

def Event.isSensorEv : Event → Bool
  | Event.sensorReadHumidity => true
  | Event.sensorReadTemperature => true
  | _ => false

/-! ### Session state

The spec's Session State machine: Disconnected, LinkUp (WiFi associated, no
broker session), BrokerConnected (client.connected() is true). -/

inductive SessionState where
  | Disconnected : SessionState
  | LinkUp : SessionState
  | BrokerConnected : SessionState
deriving DecidableEq, Repr

/-- How the session state evolves along a trace: a successful
client.connect(...) call establishes the broker session, a failed one leaves
the node associated but without a session; no other event touches it. -/
def stepState (s : SessionState) : Event → SessionState
  | Event.mqttConnectAttempt true => SessionState.BrokerConnected
  | Event.mqttConnectAttempt false => SessionState.LinkUp
  | _ => s

/-- Session state at the start of a `loop` iteration, given the value of
client.connected(). -/
def initState (connected : Bool) : SessionState :=
  if connected then SessionState.BrokerConnected else SessionState.LinkUp

/-- A trace never publishes except when the session state is
BrokerConnected. -/
def PubConn : SessionState → List Event → Prop
  | _, [] => True
  | s, e :: tr =>
      (e.isPublishEv = true → s = SessionState.BrokerConnected) ∧
      PubConn (stepState s e) tr

/-! ### setup_wifi

  void setup_wifi() \x7b
    delay(10); Serial.println(); Serial.print("Connecting to ");
    Serial.println(WIFI_SSID);
    WiFi.begin(WIFI_SSID, WIFI_PASSWORD);
    while (WiFi.status() != WL_CONNECTED) \x7b delay(500); Serial.print("."); \x7d
    Serial.println(""); Serial.println("WiFi connected");
    Serial.println("IP address: "); Serial.println(WiFi.localIP());
  \x7d

`wstat k` is the outcome of the (k+1)-th WiFi.status() check (true means
WL_CONNECTED); `fuel` bounds the number of checks we unroll. -/

def wifiWait (wstat : Nat → Bool) : Nat → Nat → Option (List Event)
  | 0, _ => none
  | fuel + 1, k =>
    if wstat k then some []
    else
      match wifiWait wstat fuel (k + 1) with
      | none => none
      | some tr => some (Event.delayMs 500 :: Event.logMsg "." :: tr)

def setup_wifi (wstat : Nat → Bool) (fuel : Nat) :
    Option (List Event × SessionState) :=
  match wifiWait wstat fuel 0 with
  | none => none
  | some tr =>
      some (Event.delayMs 10 :: Event.logMsg "" :: Event.logMsg "Connecting to " ::
            Event.logMsg WIFI_SSID :: Event.wifiBeginEv ::
            (tr ++ [Event.logMsg "", Event.logMsg "WiFi connected",
                    Event.logMsg "IP address: ", Event.logIpAddr]),
            SessionState.LinkUp)

/-- The body of the retry loop of `setup_wifi`, repeated m times: one
500 ms delay and one "." diagnostic per failed status check. -/
def waitSeq : Nat → List Event
  | 0 => []
  | m + 1 => Event.delayMs 500 :: Event.logMsg "." :: waitSeq m

/-! ### reconnect

  void reconnect() \x7b
    while (!client.connected()) \x7b
      Serial.print("Attempting MQTT connection...");
      if (client.connect(DEVICE_ID, MQTT_USER, MQTT_PASSWORD)) \x7b
        Serial.println("connected");
      \x7d else \x7b
        Serial.print("failed, rc="); Serial.print(client.state());
        Serial.println(" try again in 5 seconds");
        delay(5000);
      \x7d
    \x7d
  \x7d

`conn k` is the outcome of the (k+1)-th client.connect call, `st k` the raw
status value client.state() would report after a failed (k+1)-th attempt. -/

/-- Events of one failed handshake iteration of `reconnect`. -/
def failBlock (rc : Int) : List Event :=
  [Event.logMsg "Attempting MQTT connection...",
   Event.mqttConnectAttempt false,
   Event.logMsg ("failed, rc=" ++ toString rc ++ " try again in 5 seconds"),
   Event.delayMs 5000]

/-- Events of the successful final handshake iteration of `reconnect`. -/
def succBlock : List Event :=
  [Event.logMsg "Attempting MQTT connection...",
   Event.mqttConnectAttempt true,
   Event.logMsg "connected"]

def reconnectLoop (conn : Nat → Bool) (st : Nat → Int) :
    Nat → Nat → Option (List Event)
  | 0, _ => none
  | fuel + 1, k =>
    if conn k then some succBlock
    else
      match reconnectLoop conn st fuel (k + 1) with
      | none => none
      | some tr => some (failBlock (st k) ++ tr)

/-- `reconnect`, entered with the current value of client.connected(): the
while condition is tested before the first attempt, so an already-connected
session performs zero handshake attempts.  On exit client.connected() is
true. -/
def reconnect (connected : Bool) (conn : Nat → Bool) (st : Nat → Int)
    (fuel : Nat) : Option (List Event × Bool) :=
  if connected then some ([], true)
  else (reconnectLoop conn st fuel 0).map (fun tr => (tr, true))

/-- The m failed handshake iterations starting at attempt index k. -/
def failSeq (st : Nat → Int) : Nat → Nat → List Event
  | 0, _ => []
  | m + 1, k => failBlock (st k) ++ failSeq st m (k + 1)

/-! ### The JSON payload and the loop body

  String payload = "\x7b";
  payload += "\"device_id\": \"" + String(DEVICE_ID) + "\",";
  payload += "\"temperature\": " + String(t) + ",";
  payload += "\"humidity\": " + String(h);
  payload += "\x7d";
-/

def mkPayload (devId : String) (t h : FVal) : String :=
  "\x7b" ++ ("\"device_id\": \"" ++ devId ++ "\",")
         ++ ("\"temperature\": " ++ arduinoString t ++ ",")
         ++ ("\"humidity\": " ++ arduinoString h)
         ++ "\x7d"

/-- One iteration of `loop()`.  `connected` is client.connected() at entry,
`conn`/`st` drive `reconnect`, `h`/`t` are the values returned by
dht.readHumidity() and dht.readTemperature(), and `pubOk` is the boolean
result of client.publish — which the source discards, so the definition does
not consume it. -/
def loopIter (connected : Bool) (conn : Nat → Bool) (st : Nat → Int)
    (fuel : Nat) (h t : FVal) (pubOk : Bool) : Option (List Event × Bool) :=
  match reconnect connected conn st fuel with
  | none => none
  | some (rtr, c) =>
    if h.isnan || t.isnan then
      some (rtr ++ [Event.clientLoopPump,
                    Event.sensorReadHumidity, Event.sensorReadTemperature,
                    Event.logMsg "Failed to read from DHT sensor!",
                    Event.delayMs 2000], c)
    else
      some (rtr ++ [Event.clientLoopPump,
                    Event.sensorReadHumidity, Event.sensorReadTemperature,
                    Event.logMsg ("Publishing message: " ++
                      mkPayload DEVICE_ID t h),
                    Event.mqttPublish MQTT_TOPIC (mkPayload DEVICE_ID t h),
                    Event.delayMs 30000], c)

/-- Detects the single "WiFi connected" diagnostic that marks the
Disconnected → LinkUp transition of `setup_wifi`. -/
def isWifiConnectedMsg : Event → Bool
  | Event.logMsg s => s == "WiFi connected"
  | _ => false

/-! ### Helper lemmas -/

theorem strMerge (a b ab : String) (hab : a ++ b = ab) (x : String) :
    a ++ (b ++ x) = ab ++ x := by rw [← String.append_assoc, hab]

theorem pubConn_of_noPub (a : List Event) :
    ∀ s : SessionState, (∀ e ∈ a, e.isPublishEv = false) → PubConn s a := by
  induction a with
  | nil => intro s _; trivial
  | cons e a ih =>
    intro s hnp
    refine ⟨fun hp => ?_, ih _ (fun x hx => hnp x (List.mem_cons_of_mem _ hx))⟩
    have := hnp e (List.mem_cons_self e a)
    rw [hp] at this
    cases this

theorem pubConn_append (a b : List Event) (s : SessionState) :
    PubConn s (a ++ b) ↔ PubConn s a ∧ PubConn (a.foldl stepState s) b := by
  induction a generalizing s with
  | nil => simp [PubConn]
  | cons e a ih => simp [PubConn, ih, and_assoc]

theorem reconnectLoop_events (conn : Nat → Bool) (st : Nat → Int) :
    ∀ fuel k tr, reconnectLoop conn st fuel k = some tr →
      ∀ e ∈ tr, e.isPublishEv = false ∧ e.isSensorEv = false ∧
        (e.isDelayEv = true → e = Event.delayMs 5000) := by
  intro fuel
  induction fuel with
  | zero => intro k tr hr; simp [reconnectLoop] at hr
  | succ f ih =>
    intro k tr hr
    simp only [reconnectLoop] at hr
    by_cases hc : conn k
    · rw [if_pos hc] at hr
      injection hr with hr
      subst hr
      intro e he
      simp only [succBlock, List.mem_cons, List.not_mem_nil, or_false] at he
      rcases he with rfl | rfl | rfl <;> exact ⟨rfl, rfl, fun hd => by cases hd⟩
    · rw [if_neg hc] at hr
      cases hrec : reconnectLoop conn st f (k + 1) with
      | none => rw [hrec] at hr; cases hr
      | some tr' =>
        rw [hrec] at hr
        injection hr with hr
        subst hr
        intro e he
        rw [List.mem_append] at he
        rcases he with he | he
        · simp only [failBlock, List.mem_cons, List.not_mem_nil, or_false] at he
          rcases he with rfl | rfl | rfl | rfl <;>
            exact ⟨rfl, rfl, fun hd => by first | rfl | cases hd⟩
        · exact ih (k + 1) tr' hrec e he

theorem reconnectLoop_foldl (conn : Nat → Bool) (st : Nat → Int) :
    ∀ fuel k tr, reconnectLoop conn st fuel k = some tr →
      ∀ s, tr.foldl stepState s = SessionState.BrokerConnected := by
  intro fuel
  induction fuel with
  | zero => intro k tr hr; simp [reconnectLoop] at hr
  | succ f ih =>
    intro k tr hr s
    simp only [reconnectLoop] at hr
    by_cases hc : conn k
    · rw [if_pos hc] at hr
      injection hr with hr
      subst hr
      rfl
    · rw [if_neg hc] at hr
      cases hrec : reconnectLoop conn st f (k + 1) with
      | none => rw [hrec] at hr; cases hr
      | some tr' =>
        rw [hrec] at hr
        injection hr with hr
        subst hr
        rw [List.foldl_append]
        exact ih (k + 1) tr' hrec _

theorem reconnect_events (connected : Bool) (conn : Nat → Bool) (st : Nat → Int)
    (fuel : Nat) (rtr : List Event) (c : Bool)
    (hr : reconnect connected conn st fuel = some (rtr, c)) :
    c = true ∧ ∀ e ∈ rtr, e.isPublishEv = false ∧ e.isSensorEv = false ∧
      (e.isDelayEv = true → e = Event.delayMs 5000) := by
  unfold reconnect at hr
  by_cases hc : connected
  · rw [if_pos hc] at hr
    injection hr with hr
    injection hr with h1 h2
    subst h1
    exact ⟨h2.symm, by intro e he; cases he⟩
  · rw [if_neg hc] at hr
    cases hrec : reconnectLoop conn st fuel 0 with
    | none => rw [hrec] at hr; cases hr
    | some tr' =>
      rw [hrec] at hr
      injection hr with hr
      injection hr with h1 h2
      subst h1
      exact ⟨h2.symm, reconnectLoop_events conn st fuel 0 tr' hrec⟩

theorem reconnect_foldl (connected : Bool) (conn : Nat → Bool) (st : Nat → Int)
    (fuel : Nat) (rtr : List Event) (c : Bool)
    (hr : reconnect connected conn st fuel = some (rtr, c)) :
    rtr.foldl stepState (initState connected) = SessionState.BrokerConnected := by
  unfold reconnect at hr
  by_cases hc : connected
  · rw [if_pos hc] at hr
    injection hr with hr
    injection hr with h1 _
    subst h1
    simp [initState, hc]
  · rw [if_neg hc] at hr
    cases hrec : reconnectLoop conn st fuel 0 with
    | none => rw [hrec] at hr; cases hr
    | some tr' =>
      rw [hrec] at hr
      injection hr with hr
      injection hr with h1 _
      subst h1
      exact reconnectLoop_foldl conn st fuel 0 tr' hrec _

theorem reconnectLoop_shape (conn : Nat → Bool) (st : Nat → Int) :
    ∀ m fuel k, (∀ j, j < m → conn (k + j) = false) → conn (k + m) = true →
      m < fuel → reconnectLoop conn st fuel k = some (failSeq st m k ++ succBlock) := by
  intro m
  induction m with
  | zero =>
    intro fuel k _ hsucc hlt
    cases fuel with
    | zero => cases hlt
    | succ f =>
      have hk : conn k = true := by simpa using hsucc
      simp [reconnectLoop, hk, failSeq]
  | succ m ih =>
    intro fuel k hfail hsucc hlt
    cases fuel with
    | zero => cases hlt
    | succ f =>
      have hk : conn k = false := by simpa using hfail 0 (Nat.succ_pos m)
      have hfail' : ∀ j, j < m → conn (k + 1 + j) = false := by
        intro j hj
        have h1 := hfail (j + 1) (by omega)
        have h2 : k + (j + 1) = k + 1 + j := by omega
        rwa [h2] at h1
      have hsucc' : conn (k + 1 + m) = true := by
        have h2 : k + (m + 1) = k + 1 + m := by omega
        rwa [h2] at hsucc
      have hrec := ih f (k + 1) hfail' hsucc' (by omega)
      simp [reconnectLoop, hk, hrec, failSeq, List.append_assoc]

theorem failSeq_foldl (st : Nat → Int) :
    ∀ m k, (failSeq st m k).foldl stepState SessionState.LinkUp =
      SessionState.LinkUp := by
  intro m
  induction m with
  | zero => intro k; rfl
  | succ m ih =>
    intro k
    show ((failBlock (st k) ++ failSeq st m (k + 1)).foldl stepState
      SessionState.LinkUp) = SessionState.LinkUp
    rw [List.foldl_append]
    exact ih (k + 1)

theorem failSeq_countAttempts (st : Nat → Int) :
    ∀ m k, (failSeq st m k).countP Event.isAttemptEv = m := by
  intro m
  induction m with
  | zero => intro k; rfl
  | succ m ih =>
    intro k
    show ((failBlock (st k) ++ failSeq st m (k + 1)).countP Event.isAttemptEv) = m + 1
    rw [List.countP_append, ih (k + 1)]
    simp [failBlock, List.countP_cons, Event.isAttemptEv, Nat.add_comm]

theorem wifiWait_events (wstat : Nat → Bool) :
    ∀ fuel k tr, wifiWait wstat fuel k = some tr →
      ∀ e ∈ tr, e = Event.delayMs 500 ∨ e = Event.logMsg "." := by
  intro fuel
  induction fuel with
  | zero => intro k tr hr; simp [wifiWait] at hr
  | succ f ih =>
    intro k tr hr
    simp only [wifiWait] at hr
    by_cases hk : wstat k
    · rw [if_pos hk] at hr
      injection hr with hr
      subst hr
      intro e he
      cases he
    · rw [if_neg hk] at hr
      cases hrec : wifiWait wstat f (k + 1) with
      | none => rw [hrec] at hr; cases hr
      | some tr' =>
        rw [hrec] at hr
        injection hr with hr
        subst hr
        intro e he
        rcases he with _ | ⟨_, he⟩
        · exact Or.inl rfl
        · rcases he with _ | ⟨_, he⟩
          · exact Or.inr rfl
          · exact ih (k + 1) tr' hrec e he

theorem wifiWait_term (wstat : Nat → Bool) :
    ∀ fuel k j, j < fuel → wstat (k + j) = true →
      ∃ tr, wifiWait wstat fuel k = some tr := by
  intro fuel
  induction fuel with
  | zero => intro k j hj; omega
  | succ f ih =>
    intro k j hj hs
    by_cases hk : wstat k
    · exact ⟨[], by simp [wifiWait, hk]⟩
    · cases j with
      | zero =>
        rw [Nat.add_zero] at hs
        rw [hs] at hk
        cases hk rfl
      | succ j' =>
        have hs' : wstat (k + 1 + j') = true := by
          have h2 : k + (j' + 1) = k + 1 + j' := by omega
          rwa [h2] at hs
        obtain ⟨tr, htr⟩ := ih (k + 1) j' (by omega) hs'
        exact ⟨Event.delayMs 500 :: Event.logMsg "." :: tr,
          by simp [wifiWait, hk, htr]⟩

theorem wifiWait_shape (wstat : Nat → Bool) :
    ∀ m fuel k, (∀ j, j < m → wstat (k + j) = false) → wstat (k + m) = true →
      m < fuel → wifiWait wstat fuel k = some (waitSeq m) := by
  intro m
  induction m with
  | zero =>
    intro fuel k _ hsucc hlt
    cases fuel with
    | zero => cases hlt
    | succ f =>
      have hk : wstat k = true := by simpa using hsucc
      simp [wifiWait, hk, waitSeq]
  | succ m ih =>
    intro fuel k hfail hsucc hlt
    cases fuel with
    | zero => cases hlt
    | succ f =>
      have hk : wstat k = false := by simpa using hfail 0 (Nat.succ_pos m)
      have hfail' : ∀ j, j < m → wstat (k + 1 + j) = false := by
        intro j hj
        have h1 := hfail (j + 1) (by omega)
        have h2 : k + (j + 1) = k + 1 + j := by omega
        rwa [h2] at h1
      have hsucc' : wstat (k + 1 + m) = true := by
        have h2 : k + (m + 1) = k + 1 + m := by omega
        rwa [h2] at hsucc
      have hrec := ih f (k + 1) hfail' hsucc' (by omega)
      simp [wifiWait, hk, hrec, waitSeq]

theorem wifiWait_none (wstat : Nat → Bool) (hall : ∀ j, wstat j = false) :
    ∀ fuel k, wifiWait wstat fuel k = none := by
  intro fuel
  induction fuel with
  | zero => intro k; rfl
  | succ f ih => intro k; simp [wifiWait, hall k, ih (k + 1)]

theorem waitSeq_countDelay :
    ∀ m, (waitSeq m).countP Event.isDelayEv = m := by
  intro m
  induction m with
  | zero => rfl
  | succ m ih =>
    show ((Event.delayMs 500 :: Event.logMsg "." :: waitSeq m).countP
      Event.isDelayEv) = m + 1
    rw [List.countP_cons, List.countP_cons, ih]
    rfl

theorem waitSeq_events :
    ∀ m, ∀ e ∈ waitSeq m, e = Event.delayMs 500 ∨ e = Event.logMsg "." := by
  intro m
  induction m with
  | zero => intro e he; cases he
  | succ m ih =>
    intro e he
    rcases he with _ | ⟨_, he⟩
    · exact Or.inl rfl
    · rcases he with _ | ⟨_, he⟩
      · exact Or.inr rfl
      · exact ih e he

theorem loopIter_pubOk_irrelevant (connected : Bool) (conn : Nat → Bool)
    (st : Nat → Int) (fuel : Nat) (h t : FVal) (p1 p2 : Bool) :
    loopIter connected conn st fuel h t p1 =
      loopIter connected conn st fuel h t p2 := rfl

theorem loopIter_cases (connected : Bool) (conn : Nat → Bool) (st : Nat → Int)
    (fuel : Nat) (h t : FVal) (pubOk : Bool) (tr : List Event) (c : Bool)
    (hL : loopIter connected conn st fuel h t pubOk = some (tr, c)) :
    ∃ rtr, reconnect connected conn st fuel = some (rtr, c) ∧
      ((h.isnan || t.isnan) = true ∧
        tr = rtr ++ [Event.clientLoopPump, Event.sensorReadHumidity,
          Event.sensorReadTemperature,
          Event.logMsg "Failed to read from DHT sensor!", Event.delayMs 2000] ∨
       (h.isnan || t.isnan) = false ∧
        tr = rtr ++ [Event.clientLoopPump, Event.sensorReadHumidity,
          Event.sensorReadTemperature,
          Event.logMsg ("Publishing message: " ++ mkPayload DEVICE_ID t h),
          Event.mqttPublish MQTT_TOPIC (mkPayload DEVICE_ID t h),
          Event.delayMs 30000]) := by
  unfold loopIter at hL
  cases hre : reconnect connected conn st fuel with
  | none => rw [hre] at hL; cases hL
  | some p =>
    obtain ⟨rtr, c0⟩ := p
    rw [hre] at hL
    split at hL
    next hbad => exact Option.noConfusion hbad
    next rtr2 c2 hsome =>
      injection hsome with hsome
      injection hsome with hs1 hs2
      subst hs1
      subst hs2
      split at hL
      next hb =>
        injection hL with hL
        injection hL with h1 h2
        subst h2
        exact ⟨rtr, rfl, Or.inl ⟨hb, h1.symm⟩⟩
      next hb =>
        have hb' : (h.isnan || t.isnan) = false := by simpa using hb
        injection hL with hL
        injection hL with h1 h2
        subst h2
        exact ⟨rtr, rfl, Or.inr ⟨hb', h1.symm⟩⟩

/-! ### The claims -/

/-- Claim C3: for every valid Reading the serialization is exactly the
three-member payload, in fixed member order, with no extra members or
whitespace; in particular for device id esp32_sensor_01, t = 23.5, h = 60.2
the payload is exactly the expected string with the default two-decimal
numeric formatting. -/
theorem C3_serialize_wire_format :
    mkPayload DEVICE_ID (FVal.fin 235 1) (FVal.fin 602 1) =
      "\x7b\"device_id\": \"esp32_sensor_01\",\"temperature\": 23.50,\"humidity\": 60.20\x7d" ∧
    ∀ (tm : Int) (te : Nat) (hm : Int) (he : Nat),
      mkPayload DEVICE_ID (FVal.fin tm te) (FVal.fin hm he) =
        "\x7b\"device_id\": \"esp32_sensor_01\",\"temperature\": " ++
          fmtFixed2 tm te ++ ",\"humidity\": " ++ fmtFixed2 hm he ++ "\x7d" := by
  constructor
  · decide
  · intro tm te hm he
    simp only [mkPayload, arduinoString, DEVICE_ID, String.append_assoc]
    rw [strMerge "\x7b" "\"device_id\": \"" "\x7b\"device_id\": \"" (by decide)]
    rw [strMerge "\x7b\"device_id\": \"" "esp32_sensor_01"
      "\x7b\"device_id\": \"esp32_sensor_01" (by decide)]
    rw [strMerge "\x7b\"device_id\": \"esp32_sensor_01" "\","
      "\x7b\"device_id\": \"esp32_sensor_01\"," (by decide)]
    rw [strMerge "\x7b\"device_id\": \"esp32_sensor_01\"," "\"temperature\": "
      "\x7b\"device_id\": \"esp32_sensor_01\",\"temperature\": " (by decide)]
    rw [strMerge "," "\"humidity\": " ",\"humidity\": " (by decide)]

/-- Claim C4: `reconnect` is idempotent on an already-connected session:
entered with client.connected() true it performs zero handshake attempts,
emits no events at all, and leaves the session state BrokerConnected. -/
theorem C4_reconnect_idempotent (conn : Nat → Bool) (st : Nat → Int)
    (fuel : Nat) :
    ∃ tr : List Event, reconnect true conn st fuel = some (tr, true) ∧
      tr.countP Event.isAttemptEv = 0 ∧
      tr.foldl stepState SessionState.BrokerConnected =
        SessionState.BrokerConnected :=
  ⟨[], rfl, rfl, rfl⟩

/-- Claim C5: when the first m handshake attempts fail and the (m+1)-th
succeeds, `reconnect` runs exactly m failed iterations, each logging the raw
status value and waiting the fixed 5-second backoff, the session state stays
LinkUp across the failed iterations, and the (m+1)-th attempt makes it
BrokerConnected, at which point the loop exits with m+1 total attempts. -/
theorem C5_reconnect_retry_backoff (conn : Nat → Bool) (st : Nat → Int)
    (m fuel : Nat) (hfail : ∀ j, j < m → conn j = false)
    (hsucc : conn m = true) (hlt : m < fuel) :
    reconnect false conn st fuel = some (failSeq st m 0 ++ succBlock, true) ∧
    (failSeq st m 0).countP Event.isAttemptEv = m ∧
    (failSeq st m 0).foldl stepState SessionState.LinkUp =
      SessionState.LinkUp ∧
    (failSeq st m 0 ++ succBlock).countP Event.isAttemptEv = m + 1 ∧
    (failSeq st m 0 ++ succBlock).foldl stepState SessionState.LinkUp =
      SessionState.BrokerConnected := by
  have hshape := reconnectLoop_shape conn st m fuel 0
    (fun j hj => by simpa using hfail j hj) (by simpa using hsucc) hlt
  refine ⟨by simp [reconnect, hshape], failSeq_countAttempts st m 0,
    failSeq_foldl st m 0, ?_, ?_⟩
  · have h1 : succBlock.countP Event.isAttemptEv = 1 := by decide
    rw [List.countP_append, failSeq_countAttempts st m 0, h1]
  · rw [List.foldl_append, failSeq_foldl st m 0]
    rfl

/-- Witness for C5 at the spec's scenario: three failures then success. -/
theorem C5_witness :
    reconnect false (fun k => decide (3 ≤ k)) (fun _ => -2) 10 =
      some (failSeq (fun _ => -2) 3 0 ++ succBlock, true) :=
  (C5_reconnect_retry_backoff (fun k => decide (3 ≤ k)) (fun _ => -2) 3 10
    (by decide) (by decide) (by decide)).1

/-- Claim C9: the fixed interval between WiFi association status checks in
`setup_wifi` is exactly 500 milliseconds: with m failed checks before the
first success, the wait loop emits exactly one 500 ms delay (plus the "."
diagnostic) per failed check, and every delay in the wait loop is 500 ms. -/
theorem C9_wifi_retry_interval (wstat : Nat → Bool) (m fuel : Nat)
    (hfail : ∀ j, j < m → wstat j = false) (hsucc : wstat m = true)
    (hlt : m < fuel) :
    wifiWait wstat fuel 0 = some (waitSeq m) ∧
    (waitSeq m).countP Event.isDelayEv = m ∧
    ∀ e ∈ waitSeq m, e.isDelayEv = true → e = Event.delayMs 500 := by
  refine ⟨wifiWait_shape wstat m fuel 0
      (fun j hj => by simpa using hfail j hj) (by simpa using hsucc) hlt,
    waitSeq_countDelay m, ?_⟩
  intro e he hd
  rcases waitSeq_events m e he with rfl | rfl
  · rfl
  · cases hd

/-- Witness for C9: two failed checks then association succeeds. -/
theorem C9_witness :
    wifiWait (fun k => decide (k = 2)) 5 0 = some (waitSeq 2) :=
  (C9_wifi_retry_interval (fun k => decide (k = 2)) 2 5
    (by decide) (by decide) (by decide)).1

/-- Claim C6: `setup_wifi` blocks, retrying at a fixed interval, for as long
as association fails, and terminates exactly when it succeeds: whenever some
status check reports connected (and the fuel covers it) the function returns
with Session State LinkUp and logs the LinkUp-transition diagnostic exactly
once; on the all-failure status sequence it never returns (no fuel bound
suffices). -/
theorem C6_ensure_link_up (wstat : Nat → Bool) :
    (∀ m fuel, wstat m = true → m < fuel →
      ∃ tr, setup_wifi wstat fuel = some (tr, SessionState.LinkUp) ∧
        tr.countP isWifiConnectedMsg = 1) ∧
    ((∀ j, wstat j = false) → ∀ fuel, setup_wifi wstat fuel = none) := by
  constructor
  · intro m fuel hm hlt
    obtain ⟨wtr, hww⟩ := wifiWait_term wstat fuel 0 m hlt (by simpa using hm)
    have hz : wtr.countP isWifiConnectedMsg = 0 := by
      rw [List.countP_eq_zero]
      intro e he
      rcases wifiWait_events wstat fuel 0 wtr hww e he with rfl | rfl <;> decide
    refine ⟨Event.delayMs 10 :: Event.logMsg "" :: Event.logMsg "Connecting to " ::
      Event.logMsg WIFI_SSID :: Event.wifiBeginEv ::
      (wtr ++ [Event.logMsg "", Event.logMsg "WiFi connected",
               Event.logMsg "IP address: ", Event.logIpAddr]), ?_, ?_⟩
    · simp [setup_wifi, hww]
    · simp only [List.countP_cons, List.countP_append, List.countP_nil, hz]
      decide
  · intro hall fuel
    simp [setup_wifi, wifiWait_none wstat hall fuel 0]

/-- Witness for C6: association succeeds at the third status check; and the
all-failure oracle never returns. -/
theorem C6_witness :
    (∃ tr, setup_wifi (fun k => decide (k = 2)) 3 =
        some (tr, SessionState.LinkUp) ∧ tr.countP isWifiConnectedMsg = 1) ∧
    setup_wifi (fun _ => false) 5 = none :=
  ⟨(C6_ensure_link_up (fun k => decide (k = 2))).1 2 3 (by decide) (by decide),
   (C6_ensure_link_up (fun _ => false)).2 (fun _ => rfl) 5⟩

/-- Claim C1: in every completed cycle a publish is issued only while the
session state is BrokerConnected: the reconnect phase runs first, and only
once it has re-established the broker session can the publish event occur, so
no publish ever happens in state Disconnected or LinkUp. -/
theorem C1_publish_only_when_broker_connected (connected : Bool)
    (conn : Nat → Bool) (st : Nat → Int) (fuel : Nat) (h t : FVal)
    (pubOk : Bool) (tr : List Event) (c : Bool)
    (hL : loopIter connected conn st fuel h t pubOk = some (tr, c)) :
    PubConn (initState connected) tr := by
  obtain ⟨rtr, hre, hcase⟩ :=
    loopIter_cases connected conn st fuel h t pubOk tr c hL
  have hev := reconnect_events connected conn st fuel rtr c hre
  have hfold := reconnect_foldl connected conn st fuel rtr c hre
  rcases hcase with ⟨hb, rfl⟩ | ⟨hb, rfl⟩
  all_goals
    rw [pubConn_append]
    refine ⟨pubConn_of_noPub rtr _ (fun e he => (hev.2 e he).1), ?_⟩
    rw [hfold]
    simp [PubConn, stepState, Event.isPublishEv]

/-- Witness for C1: a disconnected cycle that reconnects after one failed
handshake and then publishes a valid reading. -/
theorem C1_witness :
    ∃ tr c, loopIter false (fun k => decide (1 ≤ k)) (fun _ => -4) 3
        (FVal.fin 605 1) (FVal.fin 251 1) true = some (tr, c) ∧
      PubConn (initState false) tr := by
  refine ⟨_, _, rfl, ?_⟩
  exact C1_publish_only_when_broker_connected false (fun k => decide (1 ≤ k))
    (fun _ => -4) 3 (FVal.fin 605 1) (FVal.fin 251 1) true _ _ rfl

/-- Claim C2: a cycle whose reading has a NaN temperature or humidity makes
zero publish calls: it logs the sensor-failure diagnostic, waits the 2-second
cooldown and ends the cycle right there, so the reading is never
transmitted. -/
theorem C2_nan_reading_never_published (connected : Bool) (conn : Nat → Bool)
    (st : Nat → Int) (fuel : Nat) (h t : FVal) (pubOk : Bool)
    (tr : List Event) (c : Bool) (hnan : (h.isnan || t.isnan) = true)
    (hL : loopIter connected conn st fuel h t pubOk = some (tr, c)) :
    tr.countP Event.isPublishEv = 0 ∧
    ∃ pre2, tr = pre2 ++ [Event.logMsg "Failed to read from DHT sensor!",
      Event.delayMs 2000] := by
  obtain ⟨rtr, hre, hcase⟩ :=
    loopIter_cases connected conn st fuel h t pubOk tr c hL
  have hev := reconnect_events connected conn st fuel rtr c hre
  rcases hcase with ⟨hb, rfl⟩ | ⟨hb, rfl⟩
  · have hz : rtr.countP Event.isPublishEv = 0 := by
      rw [List.countP_eq_zero]
      intro e he
      simp [(hev.2 e he).1]
    constructor
    · simp only [List.countP_append, List.countP_cons, List.countP_nil, hz]
      decide
    · exact ⟨rtr ++ [Event.clientLoopPump, Event.sensorReadHumidity,
        Event.sensorReadTemperature], by simp [List.append_assoc]⟩
  · simp [hb] at hnan

/-- Witness for C2 at the spec's scenario: humidity is NaN, temperature is
valid, one reconnect iteration precedes the cycle. -/
theorem C2_witness :
    ∃ tr c, loopIter false (fun _ => true) (fun _ => 0) 2 FVal.nan
        (FVal.fin 235 1) true = some (tr, c) ∧
      tr.countP Event.isPublishEv = 0 := by
  refine ⟨_, _, rfl, ?_⟩
  exact (C2_nan_reading_never_published false (fun _ => true) (fun _ => 0) 2
    FVal.nan (FVal.fin 235 1) true _ _ (by decide) rfl).1

/-- Claim C7 counterexample: the source reads humidity first, then
temperature (dht.readHumidity() precedes dht.readTemperature()), so in a
concrete connected cycle the sensor-read events are
[humidity, temperature], not the temperature-first order the claim states. -/
theorem C7_counterexample :
    ¬ ((loopIter true (fun _ => true) (fun _ => 0) 1 (FVal.fin 602 1)
          (FVal.fin 235 1) true).map (fun p => p.1.filter Event.isSensorEv) =
        some [Event.sensorReadTemperature, Event.sensorReadHumidity]) ∧
    (loopIter true (fun _ => true) (fun _ => 0) 1 (FVal.fin 602 1)
        (FVal.fin 235 1) true).map (fun p => p.1.filter Event.isSensorEv) =
      some [Event.sensorReadHumidity, Event.sensorReadTemperature] := by
  decide

/-- Claim C7 (amended): every completed cycle invokes the sensor capability
exactly twice, in the order humidity read first, then temperature read. -/
theorem C7_sensor_read_order (connected : Bool) (conn : Nat → Bool)
    (st : Nat → Int) (fuel : Nat) (h t : FVal) (pubOk : Bool)
    (tr : List Event) (c : Bool)
    (hL : loopIter connected conn st fuel h t pubOk = some (tr, c)) :
    tr.filter Event.isSensorEv =
      [Event.sensorReadHumidity, Event.sensorReadTemperature] := by
  obtain ⟨rtr, hre, hcase⟩ :=
    loopIter_cases connected conn st fuel h t pubOk tr c hL
  have hev := reconnect_events connected conn st fuel rtr c hre
  have hz : rtr.filter Event.isSensorEv = [] := by
    rw [List.filter_eq_nil_iff]
    intro e he
    simp [(hev.2 e he).2.1]
  rcases hcase with ⟨hb, rfl⟩ | ⟨hb, rfl⟩ <;>
    simp [List.filter_append, hz, List.filter_cons, Event.isSensorEv]

/-- Witness for the amended C7 in a cycle that first reconnects. -/
theorem C7_witness :
    ∃ tr c, loopIter false (fun _ => true) (fun _ => 0) 2 (FVal.fin 199 1)
        (FVal.fin 305 1) true = some (tr, c) ∧
      tr.filter Event.isSensorEv =
        [Event.sensorReadHumidity, Event.sensorReadTemperature] := by
  refine ⟨_, _, rfl, ?_⟩
  exact C7_sensor_read_order false (fun _ => true) (fun _ => 0) 2
    (FVal.fin 199 1) (FVal.fin 305 1) true _ _ rfl

/-- Claim C8: in every cycle that publishes, there is exactly one publish (no
retry within the cycle), it is immediately followed by the fixed 30-second
sleep that ends the cycle, and the cycle's behaviour is independent of the
publish result (client.publish's return value is discarded). -/
theorem C8_publish_then_thirty_second_sleep (connected : Bool)
    (conn : Nat → Bool) (st : Nat → Int) (fuel : Nat) (h t : FVal)
    (pubOk : Bool) (tr : List Event) (c : Bool)
    (hL : loopIter connected conn st fuel h t pubOk = some (tr, c))
    (hpub : 0 < tr.countP Event.isPublishEv) :
    tr.countP Event.isPublishEv = 1 ∧
    (∃ pre2, tr = pre2 ++
      [Event.mqttPublish MQTT_TOPIC (mkPayload DEVICE_ID t h),
       Event.delayMs 30000]) ∧
    ∀ pubOk2, loopIter connected conn st fuel h t pubOk2 = some (tr, c) := by
  have hall : ∀ pubOk2,
      loopIter connected conn st fuel h t pubOk2 = some (tr, c) :=
    fun pubOk2 =>
      (loopIter_pubOk_irrelevant connected conn st fuel h t pubOk2 pubOk).trans hL
  obtain ⟨rtr, hre, hcase⟩ :=
    loopIter_cases connected conn st fuel h t pubOk tr c hL
  have hev := reconnect_events connected conn st fuel rtr c hre
  have hz : rtr.countP Event.isPublishEv = 0 := by
    rw [List.countP_eq_zero]
    intro e he
    simp [(hev.2 e he).1]
  rcases hcase with ⟨hb, rfl⟩ | ⟨hb, rfl⟩
  · exfalso
    rw [List.countP_append, hz] at hpub
    simp [List.countP_cons, List.countP_nil, Event.isPublishEv] at hpub
  · refine ⟨?_, ⟨rtr ++ [Event.clientLoopPump, Event.sensorReadHumidity,
      Event.sensorReadTemperature,
      Event.logMsg ("Publishing message: " ++ mkPayload DEVICE_ID t h)],
      by simp [List.append_assoc]⟩, hall⟩
    rw [List.countP_append, hz]
    simp [List.countP_cons, List.countP_nil, Event.isPublishEv]

/-- Witness for C8: a connected cycle with a valid reading publishes exactly
once. -/
theorem C8_witness :
    ∃ tr c, loopIter true (fun _ => true) (fun _ => 0) 1 (FVal.fin 602 1)
        (FVal.fin 235 1) true = some (tr, c) ∧
      tr.countP Event.isPublishEv = 1 := by
  refine ⟨_, _, rfl, ?_⟩
  exact (C8_publish_then_thirty_second_sleep true (fun _ => true) (fun _ => 0)
    1 (FVal.fin 602 1) (FVal.fin 235 1) true _ _ rfl (by decide)).1

/-- Claim C10: a cycle that detects an invalid (NaN) reading skips the
30-second cadence sleep entirely: no 30-second delay occurs anywhere in such
a cycle, nothing is published, and when the broker session was already
connected the cycle's only delay event is the 2-second cooldown. -/
theorem C10_invalid_reading_skips_cadence_sleep (connected : Bool)
    (conn : Nat → Bool) (st : Nat → Int) (fuel : Nat) (h t : FVal)
    (pubOk : Bool) (tr : List Event) (c : Bool)
    (hnan : (h.isnan || t.isnan) = true)
    (hL : loopIter connected conn st fuel h t pubOk = some (tr, c)) :
    Event.delayMs 30000 ∉ tr ∧ tr.countP Event.isPublishEv = 0 ∧
    (connected = true → tr.filter Event.isDelayEv = [Event.delayMs 2000]) := by
  obtain ⟨rtr, hre, hcase⟩ :=
    loopIter_cases connected conn st fuel h t pubOk tr c hL
  have hev := reconnect_events connected conn st fuel rtr c hre
  rcases hcase with ⟨hb, rfl⟩ | ⟨hb, rfl⟩
  · refine ⟨?_, ?_, ?_⟩
    · intro hmem
      rw [List.mem_append] at hmem
      rcases hmem with hmem | hmem
      · have h30 := (hev.2 _ hmem).2.2 rfl
        simp at h30
      · simp at hmem
    · have hz : rtr.countP Event.isPublishEv = 0 := by
        rw [List.countP_eq_zero]
        intro e he
        simp [(hev.2 e he).1]
      simp only [List.countP_append, List.countP_cons, List.countP_nil, hz]
      decide
    · intro hc
      rw [hc] at hre
      have hcc : reconnect true conn st fuel = some ([], true) := rfl
      rw [hcc] at hre
      injection hre with hre2
      injection hre2 with hr1 hr2
      subst hr1
      simp [List.filter_cons, Event.isDelayEv]
  · simp [hb] at hnan

/-- Witness for C10: a connected cycle with a NaN humidity reading delays
only the 2-second cooldown. -/
theorem C10_witness :
    ∃ tr c, loopIter true (fun _ => true) (fun _ => 0) 1 FVal.nan
        (FVal.fin 235 1) true = some (tr, c) ∧
      tr.filter Event.isDelayEv = [Event.delayMs 2000] := by
  refine ⟨_, _, rfl, ?_⟩
  exact (C10_invalid_reading_skips_cadence_sleep true (fun _ => true)
    (fun _ => 0) 1 FVal.nan (FVal.fin 235 1) true _ _ (by decide) rfl).2.2 rfl

end Heru
